import Mathlib

/-!
Verification of the mine-bot daily-meeting lifecycle.

Shallow embedding of the daily-meeting session store, the Redmine tracking
gateway, and the `/daily` registration and video-chat handlers of the
mine-bot repository, together with theorems settling the specification
claims about them.

Conventions of the embedding:
* chat-text strings (handles, tokens, activity names) are lists of
  characters;
* timestamps are integers counting whole seconds (a `datetime` value), so
  a `timedelta.total_seconds()` is an integer subtraction;
* fractional hour counts are rationals;
* database rows live in explicit in-memory lists, and SQLAlchemy row
  mutation plus commit is modelled by rebuilding the list;
* every fallible operation returns an `Option`, mirroring the catch-and-
  return-`None` style of the source.
-/

namespace MineBot

/-- Chat-text strings are modelled as lists of characters. -/
abbrev Str := List Char

/-- Account record (src/app/database/models.py, class `User`).  The outcome
of the external Fernet decryption is carried as data on the row: `decryptOk`
records whether `CryptoManager.decrypt` succeeds on the stored blob, and
`plainToken` is the plaintext produced when it does. -/
structure User where
  id : Nat
  telegramId : Int
  username : Option Str
  encryptedRedmineToken : Option Str
  decryptOk : Bool
  plainToken : Str
  isActive : Bool
deriving DecidableEq

/-- Model of `User.has_redmine_token`: true when an encrypted token blob is stored. -/
def User.hasRedmineToken (u : User) : Bool :=
  u.encryptedRedmineToken.isSome

/-- Model of `User.get_redmine_token`: decrypt the stored blob; a missing blob (the
`.encode` call raises) or a decryption failure is caught and yields `none`. -/
def User.getRedmineToken (u : User) : Option Str :=
  match u.encryptedRedmineToken with
  | none => none
  | some _ => if u.decryptOk then some u.plainToken else none

/-- Team binding record (src/app/database/models.py, class `Team`). -/
structure Team where
  id : Nat
  telegramGroupId : Int
  redmineProjectCode : Str
  redmineProjectId : Nat
  teamName : Str
  createdByUserId : Int
  isActive : Bool
deriving DecidableEq

/-- Daily-session record (src/app/database/models.py, class `Daily`).
`endTime = none` is an open session; `registeredInRedmine` defaults to
false on creation. -/
structure Daily where
  id : Nat
  teamId : Nat
  telegramGroupId : Int
  startTime : Int
  endTime : Option Int
  registeredInRedmine : Bool
  participantsIds : List Int
deriving DecidableEq

/-- Model of `Daily.finish_daily`: sets the end timestamp unconditionally; when the
argument is `None` the current time is used. -/
def Daily.finishDaily (d : Daily) (endDatetime : Option Int) (now : Int) : Daily :=
  { d with endTime := some (endDatetime.getD now) }

/-- Model of `Daily.mark_registered_in_redmine`: sets the registered flag. -/
def Daily.markRegisteredInRedmine (d : Daily) : Daily :=
  { d with registeredInRedmine := true }

/-- The database state: the `users`, `teams` and `dailys` tables. -/
structure DB where
  users : List User
  teams : List Team
  dailies : List Daily
deriving DecidableEq

/-- Model of `UserService.get_by_username`: first active user with that handle
(exact match, src/app/database/services.py). -/
def UserService.getByUsername (db : DB) (username : Str) : Option User :=
  db.users.find? fun u => u.username == some username && u.isActive

/-- Model of `UserService.get_by_telegram_id`: first active user with that id. -/
def UserService.getByTelegramId (db : DB) (telegramId : Int) : Option User :=
  db.users.find? fun u => u.telegramId == telegramId && u.isActive

/-- Model of `TeamService.get_by_telegram_group_id`: first active team bound to the
group. -/
def TeamService.getByTelegramGroupId (db : DB) (telegramGroupId : Int) : Option Team :=
  db.teams.find? fun t => t.telegramGroupId == telegramGroupId && t.isActive

/-- Model of `DailyService.get_by_id`. -/
def DailyService.getById (db : DB) (dailyId : Nat) : Option Daily :=
  db.dailies.find? fun d => d.id == dailyId

/-- Model of `DailyService.get_active_daily_by_group`: first daily of the group with
no end timestamp. -/
def DailyService.getActiveDailyByGroup (db : DB) (telegramGroupId : Int) : Option Daily :=
  db.dailies.find? fun d => d.telegramGroupId == telegramGroupId && d.endTime.isNone

/-- Model of `DailyService.create`: inserts a fresh row (autoincremented key passed
in as `newId`); the new row is open and unregistered. -/
def DailyService.create (db : DB) (newId : Nat) (teamId : Nat) (telegramGroupId : Int)
    (startTime : Int) (participantsIds : List Int) : DB × Daily :=
  let d : Daily := ⟨newId, teamId, telegramGroupId, startTime, none, false, participantsIds⟩
  ({ db with dailies := db.dailies ++ [d] }, d)

/-- Row mutation plus commit: replace the daily with the given primary key
by its updated version. -/
def DB.updateDaily (db : DB) (dailyId : Nat) (f : Daily → Daily) : DB :=
  { db with dailies := db.dailies.map fun d => if d.id == dailyId then f d else d }

/-- Model of `DailyService.finish_daily`: fetch by id; if present, set its end
timestamp (unconditionally, even when one is already set) and return the
refreshed row; if absent, return `none` with the store untouched. -/
def DailyService.finishDaily (db : DB) (dailyId : Nat) (endTime : Option Int) (now : Int) :
    DB × Option Daily :=
  match DailyService.getById db dailyId with
  | none => (db, none)
  | some _ =>
    let db' := db.updateDaily dailyId fun d => d.finishDaily endTime now
    (db', DailyService.getById db' dailyId)

/-- Model of `DailyService.mark_registered_in_redmine`: fetch by id; if present, set
the registered flag and return the refreshed row; if absent, return `none`
with the store untouched. -/
def DailyService.markRegisteredInRedmine (db : DB) (dailyId : Nat) : DB × Option Daily :=
  match DailyService.getById db dailyId with
  | none => (db, none)
  | some _ =>
    let db' := db.updateDaily dailyId fun d => d.markRegisteredInRedmine
    (db', DailyService.getById db' dailyId)

/-- Model of `DailyService.get_latest_unregistered_daily_by_group`: filter
the finished unregistered dailies of the group, order by end timestamp
descending, take the first — i.e. an element of maximal end timestamp. -/
def DailyService.getLatestUnregisteredDailyByGroup (db : DB) (telegramGroupId : Int) :
    Option Daily :=
  (db.dailies.filter fun d =>
      d.telegramGroupId == telegramGroupId && !d.registeredInRedmine && d.endTime.isSome).argmax
    fun d => d.endTime.getD 0

/-- Whether the daily with the given id currently carries the registered
flag in the store (false as well when the row is absent). -/
def DB.isRegistered (db : DB) (dailyId : Nat) : Bool :=
  match DailyService.getById db dailyId with
  | some d => d.registeredInRedmine
  | none => false

/-! ## Redmine tracking gateway (src/app/services/redmine_service.py) -/

/-- A time-entry activity as returned by the Redmine enumeration listing. -/
structure Activity where
  id : Nat
  name : Str
deriving DecidableEq

/-- A created time entry (the fields the bot uses). -/
structure TimeEntry where
  issueId : Nat
  hours : ℚ
  activityId : Nat
deriving DecidableEq

/-- Python `str.lower()` on a chat-text string. -/
def lowerStr (s : Str) : Str :=
  s.map Char.toLower

/-- The Python substring test (the `in` operator) on character lists. -/
def hasSubstring (needle : Str) : Str → Bool
  | [] => needle.isEmpty
  | c :: rest => needle.isPrefixOf (c :: rest) || hasSubstring needle rest

/-- The activity-selection test of `RedmineService.log_daily`:
`"meeting" in activity["name"].lower()`. -/
def meetingMatch (a : Activity) : Bool :=
  hasSubstring ([ 'm', 'e', 'e', 't', 'i', 'n', 'g' ]) (lowerStr a.name)

/-- Model of `RedmineService.get_activity_id_by_name`: first activity whose name
equals the requested one case-insensitively. -/
def getActivityIdByName (activities : List Activity) (activityName : Str) : Option Nat :=
  (activities.find? fun a => lowerStr a.name == lowerStr activityName).map fun a => a.id

/-- The default activity selection of `RedmineService.log_daily` (lines
226–243): first activity whose lowercased name contains "meeting",
otherwise the first activity of the listing, `none` when the listing is
empty. -/
def selectActivityId (activities : List Activity) : Option Nat :=
  match activities.find? meetingMatch with
  | some a => some a.id
  | none => activities.head?.map fun a => a.id

/-- Model of `RedmineService.log_daily`: resolve the activity (by explicit name when
given, else by the default selection), then issue the remote time-entry
creation.  `remoteOk` carries the outcome of that external call; every
failure path — no activity available, or the remote call raising — is
caught and returned as `none`, never raised. -/
def logDaily (activities : List Activity) (remoteOk : Bool) (activityName : Option Str)
    (issueId : Nat) (hours : ℚ) : Option TimeEntry :=
  let fromName : Option Nat :=
    match activityName with
    | some n => getActivityIdByName activities n
    | none => none
  match fromName with
  | some activityId => if remoteOk then some ⟨issueId, hours, activityId⟩ else none
  | none =>
    match selectActivityId activities with
    | none => none
    | some activityId => if remoteOk then some ⟨issueId, hours, activityId⟩ else none

/-! ## The `/daily` registration handler (src/app/handlers/daily_handler.py) -/

/-- Mention extraction of `daily_command` (lines 82–88): keep the argument
tokens that start with the `@` marker and are non-empty after stripping it,
drop everything else silently. -/
def extractMentions : List Str → List Str
  | [] => []
  | arg :: rest =>
    match arg with
    | [] => extractMentions rest
    | c :: username =>
      if c == '@' then
        if username.isEmpty then extractMentions rest
        else username :: extractMentions rest
      else extractMentions rest

/-- Whether an argument token starts with the `@` mention marker
(Python `arg.startswith("@")`). -/
def startsWithAt (arg : Str) : Bool :=
  match arg with
  | [] => false
  | c :: _ => c == '@'

/-- External effects reaching `daily_command` past its validation steps:
the result of `create_daily_task` (the new task id, or `none` on failure)
and, keyed by the decrypted token of each participant, whether the
`log_daily` call of that participant succeeds. -/
structure RedmineEnv where
  createTaskResult : Option Nat
  logOk : Str → Bool

/-- The four reconciliation outcomes of the participant loop. -/
inductive Classification where
  | notFound
  | withoutToken
  | logged
  | failed
deriving DecidableEq

/-- One iteration of the participant loop (lines 212–241): resolve the
handle, check the credential twice (stored blob, then decryption), then
attempt the time-logging call. -/
def classifyUser (env : RedmineEnv) (db : DB) (username : Str) : Classification :=
  match UserService.getByUsername db username with
  | none => .notFound
  | some u =>
    if !u.hasRedmineToken then .withoutToken
    else
      match u.getRedmineToken with
      | none => .withoutToken
      | some token => if env.logOk token then .logged else .failed

/-- The four outcome buckets accumulated by the participant loop. -/
structure Buckets where
  notFoundUsers : List Str
  usersWithoutToken : List Str
  successfulLogs : List Str
  failedLogs : List Str
deriving DecidableEq

/-- The participant loop: appends each handle to the bucket of its
classification, in input order. -/
def collectBuckets (env : RedmineEnv) (db : DB) : List Str → Buckets
  | [] => ⟨[], [], [], []⟩
  | h :: rest =>
    let b := collectBuckets env db rest
    match classifyUser env db h with
    | .notFound => { b with notFoundUsers := h :: b.notFoundUsers }
    | .withoutToken => { b with usersWithoutToken := h :: b.usersWithoutToken }
    | .logged => { b with successfulLogs := h :: b.successfulLogs }
    | .failed => { b with failedLogs := h :: b.failedLogs }

/-- Duration formatting of `daily_command` (lines 196–203), from the whole
number of elapsed seconds. -/
def durationTextOf (totalSeconds : Nat) : String :=
  let totalMinutes := totalSeconds / 60
  if totalMinutes ≥ 60 then
    let hours := totalMinutes / 60
    let minutes := totalMinutes % 60
    if minutes > 0 then toString hours ++ "h " ++ toString minutes ++ "min"
    else toString hours ++ "h"
  else toString totalMinutes ++ " min"

/-- Zero-padded two-digit rendering of a field of `strftime`. -/
def pad2 (n : Nat) : String :=
  if n < 10 then "0" ++ toString n else toString n

/-- Model of `datetime.strftime` with the hours-minutes-seconds format, on
a timestamp measured in whole seconds: the time of day, hours, minutes, seconds, each zero-padded. -/
def strftimeHMS (t : Int) : String :=
  let s := t.toNat % 86400
  pad2 (s / 3600) ++ ":" ++ pad2 (s % 3600 / 60) ++ ":" ++ pad2 (s % 60)

/-- The staleness message of `daily_command` (lines 147–150); its only
datum is the end time of day of the session. -/
def staleMessage (endTimeText : String) : String :=
  "❌ Han pasado más de 30 minutos desde que terminó la última daily (" ++ endTimeText ++
    ").\n\nNo se puede registrar en Redmine."

/-- The terminal outcome of the registration portion of `daily_command`. -/
inductive Outcome where
  | stillOpen
  | stale (message : String)
  | createFailed
  | registered (taskId : Nat) (durationHours : ℚ) (durationText : String) (buckets : Buckets)
deriving DecidableEq

/-- The registration portion of `daily_command` (lines 136–244), entered
with the fetched candidate session `latest`: reject an unfinished session;
reject a session whose end lies more than 30 minutes in the past, quoting
its end time of day; stop without touching the store when the Redmine task
creation fails; otherwise compute the duration, run the participant loop,
and mark the session registered unconditionally. -/
def dailyRegistration (env : RedmineEnv) (db : DB) (latest : Daily) (now : Int)
    (handles : List Str) : DB × Outcome :=
  match latest.endTime with
  | none => (db, .stillOpen)
  | some endTime =>
    if now - endTime > 30 * 60 then
      (db, .stale (staleMessage (strftimeHMS endTime)))
    else
      match env.createTaskResult with
      | none => (db, .createFailed)
      | some taskId =>
        let durationSeconds := (endTime - latest.startTime).toNat
        let durationHours : ℚ := ((endTime - latest.startTime : Int) : ℚ) / 3600
        let durationText := durationTextOf durationSeconds
        let buckets := collectBuckets env db handles
        let db' := (DailyService.markRegisteredInRedmine db latest.id).1
        (db', .registered taskId durationHours durationText buckets)

/-! ## The video-chat start handler (src/app/handlers/videochat_handler.py) -/

/-- Model of `videochat_started_handler` (lines 34–60): ignore the signal when the
group has no active team binding or already has an active (open) daily,
otherwise create a fresh open daily for the group. -/
def videochatStartedHandler (db : DB) (groupId : Int) (startTime : Int) (newId : Nat) : DB :=
  match TeamService.getByTelegramGroupId db groupId with
  | none => db
  | some team =>
    match DailyService.getActiveDailyByGroup db groupId with
    | some _ => db
    | none => (DailyService.create db newId team.id groupId startTime []).1

/-- Number of open sessions a group has in the store. -/
def DB.openCount (db : DB) (groupId : Int) : Nat :=
  (db.dailies.filter fun d => d.telegramGroupId == groupId && d.endTime.isNone).length

/-- Whether an outcome is the staleness rejection. -/
def Outcome.isStale : Outcome → Bool
  | .stale _ => true
  | _ => false

/-- The formatted duration a registration outcome displays, when any. -/
def Outcome.durText : Outcome → Option String
  | .registered _ _ t _ => some t
  | _ => none

/-! ## Concrete fixtures used by witnesses and counterexamples -/

/-- The handle `ana`. -/
def wAna : Str := "ana".toList

/-- A database with no rows at all. -/
def wDbEmpty : DB := ⟨[], [], []⟩

/-- An environment whose task creation fails and whose logging calls all
succeed. -/
def wEnv2 : RedmineEnv := ⟨none, fun _ => true⟩

/-- An environment whose task creation yields task 7 and whose logging
calls all fail. -/
def w1Env : RedmineEnv := ⟨some 7, fun _ => false⟩

/-- A closed, unregistered daily for group 1, ended at second 100. -/
def exDaily1 : Daily := ⟨1, 1, 1, 0, some 100, false, []⟩

/-- A store holding just `exDaily1`. -/
def exDb1 : DB := ⟨[], [], [exDaily1]⟩

/-- A registered closed daily of group 1 with the most recent end (100). -/
def exDailyReg : Daily := ⟨1, 1, 1, 0, some 100, true, []⟩

/-- An older unregistered closed daily of group 1 (end 50). -/
def exDailyOld : Daily := ⟨2, 1, 1, 0, some 50, false, []⟩

/-- A store where the most recently closed daily of group 1 is registered
and an older closed one is not. -/
def exDb3 : DB := ⟨[], [], [exDailyReg, exDailyOld]⟩

/-- An already-closed daily (end 100) with primary key 3. -/
def exClosedDaily : Daily := ⟨3, 1, 1, 0, some 100, false, []⟩

/-- A store holding just `exClosedDaily`. -/
def exDbClosed : DB := ⟨[], [], [exClosedDaily]⟩

/-- A daily of group 1 ended exactly at second 0. -/
def wDailyA : Daily := ⟨1, 1, 1, 0, some 0, false, []⟩

/-- A daily closed at 09:00:00 (second 32400 of the day). -/
def cDaily6 : Daily := ⟨4, 1, 1, 0, some 32400, false, []⟩

/-- A store holding just `cDaily6`. -/
def cDb6 : DB := ⟨[], [], [cDaily6]⟩

/-- An environment whose task creation yields task 7 and whose logging
calls all succeed. -/
def cEnv6 : RedmineEnv := ⟨some 7, fun _ => true⟩

/-- A team binding for group 5. -/
def team5 : Team := ⟨1, 5, [], 1, [], 0, true⟩

/-- A store with the group-5 binding and no sessions. -/
def db7 : DB := ⟨[], [team5], []⟩

/-- Two activities, the second of which contains "Meeting" in its name. -/
def w8Acts : List Activity := [⟨1, "Development".toList⟩, ⟨2, "Team Meeting".toList⟩]

/-- The session of the 09:00:00–09:47:30 duration scenario. -/
def w9Daily : Daily := ⟨1, 1, 1, 32400, some 35250, false, []⟩

/-- A store holding just `w9Daily`. -/
def w9Db : DB := ⟨[], [], [w9Daily]⟩

/-- Command arguments `@ana bob`: one mention, one bare token. -/
def wArgs : List Str := ["@ana".toList, "bob".toList]

/-! ## Helper lemmas -/

/-- The function `hasSubstring` decides the infix relation. -/
theorem hasSubstring_iff (n h : Str) : hasSubstring n h = true ↔ n <:+: h := by
  induction h with
  | nil =>
    simp only [hasSubstring, List.isEmpty_iff, List.infix_nil]
  | cons c t ih =>
    simp only [hasSubstring, Bool.or_eq_true, List.isPrefixOf_iff_prefix, ih]
    exact (List.infix_cons_iff).symm

/-- A list always contains what it is built around. -/
theorem hasSubstring_append (n p s : Str) : hasSubstring n (p ++ n ++ s) = true :=
  (hasSubstring_iff n _).2 ⟨p, s, rfl⟩

/-- Replacing the daily with a given key by an id-preserving update commutes
with looking that key up. -/
theorem find?_update (l : List Daily) (dailyId : Nat) (f : Daily → Daily)
    (hf : ∀ d, (f d).id = d.id) :
    (l.map fun d => if d.id == dailyId then f d else d).find? (fun d => d.id == dailyId)
      = (l.find? fun d => d.id == dailyId).map f := by
  induction l with
  | nil => rfl
  | cons d t ih =>
    by_cases h : d.id = dailyId
    · have hd : (d.id == dailyId) = true := by simp [h]
      have hfd : ((f d).id == dailyId) = true := by simp [hf, h]
      rw [List.map_cons, if_pos hd, List.find?_cons, List.find?_cons, hd, hfd]
      rfl
    · have hd : (d.id == dailyId) = false := by simp [h]
      rw [List.map_cons, if_neg (by simp [h]), List.find?_cons, List.find?_cons, hd]
      exact ih

/-- Looking up a daily after `mark_registered_in_redmine` returns the
row with the flag set. -/
theorem markRegistered_getById (db : DB) (dailyId : Nat) (d : Daily)
    (hd : DailyService.getById db dailyId = some d) :
    DailyService.getById (DailyService.markRegisteredInRedmine db dailyId).1 dailyId
      = some d.markRegisteredInRedmine := by
  have h1 : (DailyService.markRegisteredInRedmine db dailyId).1
      = db.updateDaily dailyId Daily.markRegisteredInRedmine := by
    unfold DailyService.markRegisteredInRedmine
    rw [hd]
  have h2 : (db.updateDaily dailyId Daily.markRegisteredInRedmine).dailies
      = db.dailies.map fun d => if d.id == dailyId then Daily.markRegisteredInRedmine d else d :=
    rfl
  rw [h1]
  unfold DailyService.getById
  rw [h2, find?_update db.dailies dailyId Daily.markRegisteredInRedmine (fun _ => rfl)]
  have hd' : db.dailies.find? (fun x => x.id == dailyId) = some d := hd
  rw [hd', Option.map_some']

/-- Looking up a daily after `finish_daily` returns the row with the new
end timestamp. -/
theorem finishDaily_getById (db : DB) (dailyId : Nat) (endTime : Option Int) (now : Int)
    (d : Daily) (hd : DailyService.getById db dailyId = some d) :
    DailyService.getById (db.updateDaily dailyId fun x => x.finishDaily endTime now) dailyId
      = some (d.finishDaily endTime now) := by
  have h2 : (db.updateDaily dailyId fun x => x.finishDaily endTime now).dailies
      = db.dailies.map fun d => if d.id == dailyId then d.finishDaily endTime now else d :=
    rfl
  unfold DailyService.getById
  rw [h2, find?_update db.dailies dailyId (fun x => x.finishDaily endTime now) (fun _ => rfl)]
  have hd' : db.dailies.find? (fun x => x.id == dailyId) = some d := hd
  rw [hd', Option.map_some']

/-! ## Claims -/

/-- Claim C4 (amended): the close operation returns `none` and leaves the
store untouched when the session does not exist; when the session exists —
open or already closed — it succeeds, setting the end timestamp to the
supplied value (or the current time), overwriting any end timestamp
already present.  Hence post-close immutability of the end timestamp is
not enforced by the operation itself. -/
theorem claim_c4 (db : DB) (dailyId : Nat) (endTime : Option Int) (now : Int) :
    (DailyService.getById db dailyId = none →
      DailyService.finishDaily db dailyId endTime now = (db, none)) ∧
    (∀ d, DailyService.getById db dailyId = some d →
      DailyService.finishDaily db dailyId endTime now
        = (db.updateDaily dailyId fun x => x.finishDaily endTime now,
            some (d.finishDaily endTime now))) := by
  constructor
  · intro h
    unfold DailyService.finishDaily
    rw [h]
  · intro d hd
    unfold DailyService.finishDaily
    simp only [hd]
    rw [finishDaily_getById db dailyId endTime now d hd]

/-- Claim C4 witness: closing the already-closed `exClosedDaily` (end 100)
with end value 200 succeeds and returns the row with end 200. -/
theorem claim_c4_witness :
    DailyService.finishDaily exDbClosed 3 (some 200) 999
      = (exDbClosed.updateDaily 3 fun x => x.finishDaily (some 200) 999,
          some (exClosedDaily.finishDaily (some 200) 999)) :=
  (claim_c4 exDbClosed 3 (some 200) 999).2 exClosedDaily (by decide)

/-- Claim C4 counterexample: the claim fails on the code — closing the
already-closed session 3 (end timestamp 100) does not fail: it succeeds
and changes the end timestamp to 200; and closing a nonexistent session
returns `none` rather than raising a `NotFoundError` (there is no such
error path in the store). -/
theorem claim_c4_counterexample :
    exClosedDaily.endTime = some 100 ∧
    (DailyService.finishDaily exDbClosed 3 (some 200) 999).2
      = some { exClosedDaily with endTime := some 200 } ∧
    DailyService.finishDaily exDbClosed 9 (some 200) 999 = (exDbClosed, none) := by
  decide

/-- Claim C5: the registration outcome is the staleness rejection exactly
when the elapsed time since the end of the session exceeds 30 minutes — an
elapsed time of exactly 30:00 is accepted (the handler proceeds), 30:01 is
rejected. -/
theorem claim_c5 (env : RedmineEnv) (db : DB) (latest : Daily) (now endTime : Int)
    (handles : List Str) (h : latest.endTime = some endTime) :
    (dailyRegistration env db latest now handles).2.isStale = true ↔
      now - endTime > 30 * 60 := by
  unfold dailyRegistration
  simp only [h]
  by_cases hw : now - endTime > 30 * 60
  · rw [if_pos hw]
    exact iff_of_true rfl hw
  · rw [if_neg hw]
    cases hc : env.createTaskResult with
    | none => exact iff_of_false Bool.false_ne_true hw
    | some taskId => exact iff_of_false Bool.false_ne_true hw

/-- Claim C5 witness: with the session ended at second 0, a request at second
1800 (elapsed exactly 30:00) is not stale, and a request at second 1801
(elapsed 30:01) is stale. -/
theorem claim_c5_witness :
    (((dailyRegistration w1Env wDbEmpty wDailyA 1800 []).2.isStale = true ↔
        (1800 : Int) - 0 > 30 * 60) ∧
      ¬((1800 : Int) - 0 > 30 * 60)) ∧
    (((dailyRegistration w1Env wDbEmpty wDailyA 1801 []).2.isStale = true ↔
        (1801 : Int) - 0 > 30 * 60) ∧
      ((1801 : Int) - 0 > 30 * 60)) :=
  ⟨⟨claim_c5 w1Env wDbEmpty wDailyA 1800 0 [] rfl, by decide⟩,
    ⟨claim_c5 w1Env wDbEmpty wDailyA 1801 0 [] rfl, by decide⟩⟩

/-- Claim C6 (amended): when a registration request arrives more than 30
minutes after the end of the session, the handler replies with the
staleness message, which quotes the end time of day of the session
(hours, minutes, seconds) — not
the elapsed duration — and the store is left untouched, so the session
stays closed and unregistered. -/
theorem claim_c6 (env : RedmineEnv) (db : DB) (latest : Daily) (now endTime : Int)
    (handles : List Str) (h : latest.endTime = some endTime)
    (hw : now - endTime > 30 * 60) :
    dailyRegistration env db latest now handles
      = (db, .stale (staleMessage (strftimeHMS endTime))) ∧
    hasSubstring (strftimeHMS endTime).toList
      (staleMessage (strftimeHMS endTime)).toList = true := by
  constructor
  · unfold dailyRegistration
    simp only [h]
    rw [if_pos hw]
  · have e1 : ∀ a b : String, (a ++ b).toList = a.toList ++ b.toList := fun a b =>
      String.data_append a b
    show hasSubstring (strftimeHMS endTime).toList
      (("❌ Han pasado más de 30 minutos desde que terminó la última daily ("
          ++ strftimeHMS endTime ++ ").\n\nNo se puede registrar en Redmine.").toList) = true
    rw [e1, e1]
    exact hasSubstring_append _ _ _

/-- Claim C6 witness: a session closed at 09:00:00 queried at elapsed 41
minutes yields the staleness outcome, unchanged store, and a message
containing the end time of day. -/
theorem claim_c6_witness :
    dailyRegistration cEnv6 cDb6 cDaily6 34860 []
      = (cDb6, .stale (staleMessage (strftimeHMS 32400))) ∧
    hasSubstring (strftimeHMS 32400).toList
      (staleMessage (strftimeHMS 32400)).toList = true :=
  claim_c6 cEnv6 cDb6 cDaily6 34860 32400 [] rfl (by decide)

/-- Claim C6 counterexample: the claim fails on the code — for a session
closed at 09:00:00 and a request 41 minutes (2460 seconds) later, the
staleness message contains no rendering of the elapsed time ("41",
"2460", or "00:41:00" are all absent) while it does contain the end
timestamp "09:00:00". -/
theorem claim_c6_counterexample :
    dailyRegistration cEnv6 cDb6 cDaily6 34860 []
      = (cDb6, .stale (staleMessage (strftimeHMS 32400))) ∧
    hasSubstring "41".toList (staleMessage (strftimeHMS 32400)).toList = false ∧
    hasSubstring "2460".toList (staleMessage (strftimeHMS 32400)).toList = false ∧
    hasSubstring (strftimeHMS 2460).toList (staleMessage (strftimeHMS 32400)).toList = false ∧
    hasSubstring "09:00:00".toList (staleMessage (strftimeHMS 32400)).toList = true := by
  decide

/-- Claim C1: past the staleness window, the session ends up registered if
and only if the tracking-record creation succeeded — a failed creation
leaves the store untouched and the session unregistered, a successful
creation marks the session registered whatever the per-participant
logging outcomes are. -/
theorem claim_c1 (env : RedmineEnv) (db : DB) (latest : Daily) (now endTime : Int)
    (handles : List Str) (h1 : latest.endTime = some endTime)
    (h2 : ¬now - endTime > 30 * 60)
    (h3 : DailyService.getById db latest.id = some latest)
    (h4 : latest.registeredInRedmine = false) :
    (env.createTaskResult = none →
      dailyRegistration env db latest now handles = (db, .createFailed) ∧
      (dailyRegistration env db latest now handles).1.isRegistered latest.id = false) ∧
    (∀ taskId, env.createTaskResult = some taskId →
      (dailyRegistration env db latest now handles).1.isRegistered latest.id = true) ∧
    ((dailyRegistration env db latest now handles).1.isRegistered latest.id = true ↔
      env.createTaskResult.isSome = true) := by
  cases hc : env.createTaskResult with
  | none =>
    have hres : dailyRegistration env db latest now handles = (db, .createFailed) := by
      unfold dailyRegistration
      simp only [h1, hc]
      rw [if_neg h2]
    have hnotreg : (dailyRegistration env db latest now handles).1.isRegistered latest.id
        = false := by
      rw [hres]
      show db.isRegistered latest.id = false
      unfold DB.isRegistered
      simp only [h3]
      exact h4
    refine ⟨fun _ => ⟨hres, hnotreg⟩, fun taskId ht => Option.noConfusion ht, ?_⟩
    rw [hnotreg]
    simp
  | some taskId =>
    have hres1 : (dailyRegistration env db latest now handles).1
        = (DailyService.markRegisteredInRedmine db latest.id).1 := by
      unfold dailyRegistration
      simp only [h1, hc]
      rw [if_neg h2]
    have hregd : (DailyService.markRegisteredInRedmine db latest.id).1.isRegistered latest.id
        = true := by
      unfold DB.isRegistered
      simp only [markRegistered_getById db latest.id latest h3]
      rfl
    refine ⟨fun hnone => Option.noConfusion hnone, fun t ht => ?_, ?_⟩
    · rw [hres1]
      exact hregd
    · rw [hres1]
      exact iff_of_true hregd rfl

/-- Claim C1 witness: with record creation succeeding (task 7) and every
participant logging attempt failing (`w1Env` logs nothing, and the only handle
resolves to no account), the session still ends up registered. -/
theorem claim_c1_witness :
    (dailyRegistration w1Env exDb1 exDaily1 200 [wAna]).1.isRegistered exDaily1.id = true :=
  (claim_c1 w1Env exDb1 exDaily1 200 100 [wAna] rfl (by decide) (by decide) rfl).2.1 7 rfl

/-- Claim C3 (amended): `get_latest_unregistered_daily_by_group` returns the
most recently closed *unregistered* session of the group, and returns
`none` exactly when the group has no closed unregistered session at all —
when the most recently closed session is already registered it falls back
to the most recent closed unregistered one rather than returning `none`. -/
theorem claim_c3 (db : DB) (gid : Int) :
    (DailyService.getLatestUnregisteredDailyByGroup db gid = none ↔
      ∀ d ∈ db.dailies, d.telegramGroupId = gid → d.registeredInRedmine = false →
        d.endTime.isSome = true → False) ∧
    (∀ d, DailyService.getLatestUnregisteredDailyByGroup db gid = some d →
      d ∈ db.dailies ∧ d.telegramGroupId = gid ∧ d.registeredInRedmine = false ∧
      d.endTime.isSome = true ∧
      ∀ c ∈ db.dailies, c.telegramGroupId = gid → c.registeredInRedmine = false →
        c.endTime.isSome = true → c.endTime.getD 0 ≤ d.endTime.getD 0) := by
  constructor
  · unfold DailyService.getLatestUnregisteredDailyByGroup
    rw [List.argmax_eq_none, List.filter_eq_nil_iff]
    constructor
    · intro hall d hd ha hb hcnd
      exact hall d hd (by simp [ha, hb, hcnd])
    · intro hall d hd hp
      simp only [Bool.and_eq_true, beq_iff_eq, Bool.not_eq_true'] at hp
      exact hall d hd hp.1.1 hp.1.2 hp.2
  · intro d hd
    unfold DailyService.getLatestUnregisteredDailyByGroup at hd
    have hdm : d ∈ List.argmax (fun d => d.endTime.getD 0)
        (db.dailies.filter fun d =>
          d.telegramGroupId == gid && !d.registeredInRedmine && d.endTime.isSome) :=
      Option.mem_def.mpr hd
    have hmem := List.argmax_mem hdm
    obtain ⟨hmem', hp⟩ := List.mem_filter.1 hmem
    simp only [Bool.and_eq_true, beq_iff_eq, Bool.not_eq_true'] at hp
    refine ⟨hmem', hp.1.1, hp.1.2, hp.2, ?_⟩
    intro c hcm h1 h2 h3
    have hcf : c ∈ db.dailies.filter fun d =>
        d.telegramGroupId == gid && !d.registeredInRedmine && d.endTime.isSome :=
      List.mem_filter.2 ⟨hcm, by simp [h1, h2, h3]⟩
    exact List.le_of_mem_argmax hcf hdm

/-- Claim C3 witness: on the concrete store `exDb3` the returned session
`exDailyOld` is unregistered and maximal among the closed unregistered
sessions of the group. -/
theorem claim_c3_witness :
    exDailyOld.registeredInRedmine = false ∧
    exDailyOld.endTime.getD 0 ≤ exDailyOld.endTime.getD 0 :=
  ⟨((claim_c3 exDb3 1).2 exDailyOld (by decide)).2.2.1,
    ((claim_c3 exDb3 1).2 exDailyOld (by decide)).2.2.2.2 exDailyOld (by decide) (by decide)
      (by decide) (by decide)⟩

/-- Claim C3 counterexample: the claim fails on the code — in `exDb3` the
most recently closed session of group 1 (`exDailyReg`, end 100) is already
registered, yet the query does not return `none`: it falls back to the
older unregistered closed session `exDailyOld` (end 50). -/
theorem claim_c3_counterexample :
    exDailyReg.registeredInRedmine = true ∧
    exDailyOld.endTime.getD 0 ≤ exDailyReg.endTime.getD 0 ∧
    exDb3.dailies = [exDailyReg, exDailyOld] ∧
    DailyService.getLatestUnregisteredDailyByGroup exDb3 1 = some exDailyOld := by
  decide

/-- Claim C7: a video-chat start signal for a group with no team binding
creates nothing; one for a group that already has an open session is a
no-op; and the handler preserves the invariant that every group has at
most one open session. -/
theorem claim_c7 (db : DB) (gid : Int) (startTime : Int) (newId : Nat) :
    (TeamService.getByTelegramGroupId db gid = none →
      videochatStartedHandler db gid startTime newId = db) ∧
    (∀ d, DailyService.getActiveDailyByGroup db gid = some d →
      videochatStartedHandler db gid startTime newId = db) ∧
    ((∀ g, db.openCount g ≤ 1) →
      ∀ g, (videochatStartedHandler db gid startTime newId).openCount g ≤ 1) := by
  refine ⟨?_, ?_, ?_⟩
  · intro hteam
    unfold videochatStartedHandler
    rw [hteam]
  · intro d hact
    unfold videochatStartedHandler
    cases hteam : TeamService.getByTelegramGroupId db gid with
    | none => rfl
    | some team => rw [hact]
  · intro hinv g
    unfold videochatStartedHandler
    cases hteam : TeamService.getByTelegramGroupId db gid with
    | none => exact hinv g
    | some team =>
      cases hact : DailyService.getActiveDailyByGroup db gid with
      | some d => exact hinv g
      | none =>
        have hnone : ∀ d ∈ db.dailies,
            ¬(d.telegramGroupId == gid && d.endTime.isNone) = true :=
          List.find?_eq_none.1 hact
        have hsplit : ((DailyService.create db newId team.id gid startTime []).1).openCount g
            = (db.dailies.filter fun d => d.telegramGroupId == g && d.endTime.isNone).length
              + (([(⟨newId, team.id, gid, startTime, none, false, []⟩ : Daily)].filter
                  fun d => d.telegramGroupId == g && d.endTime.isNone)).length := by
          unfold DailyService.create DB.openCount
          rw [List.filter_append, List.length_append]
        rw [hsplit]
        by_cases hg : gid = g
        · subst hg
          have hzero : (db.dailies.filter
              fun d => d.telegramGroupId == gid && d.endTime.isNone) = [] :=
            List.filter_eq_nil_iff.2 hnone
          rw [hzero]
          simp
        · have hone : ((⟨newId, team.id, gid, startTime, none, false, []⟩ : Daily).telegramGroupId
              == g && (Option.isNone (α := Int) none)) = false := by
            simp [hg]
          rw [List.filter_cons, hone]
          simpa using hinv g

/-- Claim C7 witness: in the store with the group-5 binding and no sessions,
a start signal leaves group 5 with at most one open session. -/
theorem claim_c7_witness :
    (videochatStartedHandler db7 5 100 9).openCount 5 ≤ 1 :=
  (claim_c7 db7 5 100 9).2.2 (fun _ => Nat.zero_le 1) 5

/-- Claim C8: `log_daily` fails by returning `none` when no activity exists;
when the activity list has an entry whose lowercased name contains
"meeting" the first such entry is selected, otherwise the first activity
is used; and an activity whose name *equals* "meeting" case-insensitively
guarantees the meeting-preference branch applies. -/
theorem claim_c8 (activities : List Activity) (issueId : Nat) (hours : ℚ) :
    (activities = [] → logDaily activities true none issueId hours = none) ∧
    (∀ a, activities.find? meetingMatch = some a →
      logDaily activities true none issueId hours = some ⟨issueId, hours, a.id⟩ ∧
      meetingMatch a = true ∧ a ∈ activities) ∧
    (activities.find? meetingMatch = none → ∀ a, activities.head? = some a →
      logDaily activities true none issueId hours = some ⟨issueId, hours, a.id⟩ ∧
      ∀ b ∈ activities, meetingMatch b = false) ∧
    (∀ b ∈ activities, lowerStr b.name = "meeting".toList →
      activities.find? meetingMatch ≠ none) := by
  refine ⟨?_, ?_, ?_, ?_⟩
  · intro h
    subst h
    rfl
  · intro a ha
    have hsel : selectActivityId activities = some a.id := by
      unfold selectActivityId
      rw [ha]
    refine ⟨?_, List.find?_some ha, List.mem_of_find?_eq_some ha⟩
    unfold logDaily
    simp only [hsel]
    exact if_pos trivial
  · intro hnone a ha
    have hsel : selectActivityId activities = some a.id := by
      unfold selectActivityId
      rw [hnone, ha]
      rfl
    constructor
    · unfold logDaily
      simp only [hsel]
      exact if_pos trivial
    · intro b hb
      exact Bool.eq_false_iff.mpr (List.find?_eq_none.1 hnone b hb)
  · intro b hb hname hnone
    have hmb : meetingMatch b = true := by
      unfold meetingMatch
      rw [hname]
      exact (hasSubstring_iff _ _).2 (List.infix_refl _)
    exact List.find?_eq_none.1 hnone b hb hmb

/-- Claim C8 witness: with activities Development and Team Meeting, the
logging call selects Team Meeting (id 2). -/
theorem claim_c8_witness :
    logDaily w8Acts true none 7 (1 / 2)
      = some ⟨7, 1 / 2, (⟨2, "Team Meeting".toList⟩ : Activity).id⟩ ∧
    meetingMatch ⟨2, "Team Meeting".toList⟩ = true ∧
    (⟨2, "Team Meeting".toList⟩ : Activity) ∈ w8Acts :=
  (claim_c8 w8Acts 7 (1 / 2)).2.1 ⟨2, "Team Meeting".toList⟩ (by decide)

/-- Each bucket accumulated by the participant loop is the filter of the
handle list by the corresponding classification. -/
theorem collectBuckets_eq (env : RedmineEnv) (db : DB) (handles : List Str) :
    (collectBuckets env db handles).notFoundUsers
      = handles.filter (fun h => classifyUser env db h == .notFound) ∧
    (collectBuckets env db handles).usersWithoutToken
      = handles.filter (fun h => classifyUser env db h == .withoutToken) ∧
    (collectBuckets env db handles).successfulLogs
      = handles.filter (fun h => classifyUser env db h == .logged) ∧
    (collectBuckets env db handles).failedLogs
      = handles.filter (fun h => classifyUser env db h == .failed) := by
  induction handles with
  | nil => exact ⟨rfl, rfl, rfl, rfl⟩
  | cons h t ih =>
    obtain ⟨ih1, ih2, ih3, ih4⟩ := ih
    cases hcl : classifyUser env db h <;>
      simp [collectBuckets, hcl, ih1, ih2, ih3, ih4, List.filter_cons]

/-- Claim C2: the participant loop places every processed handle in exactly
one of the four buckets — a handle is in some bucket iff it was processed,
the buckets are pairwise disjoint, and each bucket preserves the relative
order of the original mention sequence (it is a sublist of it). -/
theorem claim_c2 (env : RedmineEnv) (db : DB) (handles : List Str) (h : Str) :
    (h ∈ handles ↔
      h ∈ (collectBuckets env db handles).notFoundUsers ∨
      h ∈ (collectBuckets env db handles).usersWithoutToken ∨
      h ∈ (collectBuckets env db handles).successfulLogs ∨
      h ∈ (collectBuckets env db handles).failedLogs) ∧
    (h ∈ (collectBuckets env db handles).notFoundUsers →
      h ∉ (collectBuckets env db handles).usersWithoutToken ∧
      h ∉ (collectBuckets env db handles).successfulLogs ∧
      h ∉ (collectBuckets env db handles).failedLogs) ∧
    (h ∈ (collectBuckets env db handles).usersWithoutToken →
      h ∉ (collectBuckets env db handles).successfulLogs ∧
      h ∉ (collectBuckets env db handles).failedLogs) ∧
    (h ∈ (collectBuckets env db handles).successfulLogs →
      h ∉ (collectBuckets env db handles).failedLogs) ∧
    (collectBuckets env db handles).notFoundUsers.Sublist handles ∧
    (collectBuckets env db handles).usersWithoutToken.Sublist handles ∧
    (collectBuckets env db handles).successfulLogs.Sublist handles ∧
    (collectBuckets env db handles).failedLogs.Sublist handles := by
  obtain ⟨e1, e2, e3, e4⟩ := collectBuckets_eq env db handles
  rw [e1, e2, e3, e4]
  refine ⟨?_, ?_, ?_, ?_, List.filter_sublist _, List.filter_sublist _,
    List.filter_sublist _, List.filter_sublist _⟩
  · constructor
    · intro hmem
      cases hcl : classifyUser env db h with
      | notFound => exact Or.inl (List.mem_filter.2 ⟨hmem, by simp [hcl]⟩)
      | withoutToken => exact Or.inr (Or.inl (List.mem_filter.2 ⟨hmem, by simp [hcl]⟩))
      | logged => exact Or.inr (Or.inr (Or.inl (List.mem_filter.2 ⟨hmem, by simp [hcl]⟩)))
      | failed => exact Or.inr (Or.inr (Or.inr (List.mem_filter.2 ⟨hmem, by simp [hcl]⟩)))
    · rintro (hm | hm | hm | hm) <;> exact (List.mem_filter.1 hm).1
  · intro hm
    simp only [List.mem_filter, beq_iff_eq] at hm ⊢
    obtain ⟨hmm, hcl⟩ := hm
    exact ⟨fun h2 => Classification.noConfusion (hcl.symm.trans h2.2),
      fun h2 => Classification.noConfusion (hcl.symm.trans h2.2),
      fun h2 => Classification.noConfusion (hcl.symm.trans h2.2)⟩
  · intro hm
    simp only [List.mem_filter, beq_iff_eq] at hm ⊢
    obtain ⟨hmm, hcl⟩ := hm
    exact ⟨fun h2 => Classification.noConfusion (hcl.symm.trans h2.2),
      fun h2 => Classification.noConfusion (hcl.symm.trans h2.2)⟩
  · intro hm
    simp only [List.mem_filter, beq_iff_eq] at hm ⊢
    obtain ⟨hmm, hcl⟩ := hm
    exact fun h2 => Classification.noConfusion (hcl.symm.trans h2.2)

/-- Claim C2 witness: the handle `ana`, resolving to no account in the empty
store, lands in the not-found bucket only. -/
theorem claim_c2_witness :
    wAna ∉ (collectBuckets wEnv2 wDbEmpty [wAna]).usersWithoutToken ∧
    wAna ∉ (collectBuckets wEnv2 wDbEmpty [wAna]).successfulLogs ∧
    wAna ∉ (collectBuckets wEnv2 wDbEmpty [wAna]).failedLogs :=
  (claim_c2 wEnv2 wDbEmpty [wAna] wAna).2.1 (by decide)

/-- Claim C10: argument tokens that do not start with the `@` marker are
silently discarded before reconciliation — dropping them changes neither
the extracted handle list nor the resulting buckets — and every extracted
handle comes from an `@`-prefixed token with a non-empty remainder. -/
theorem claim_c10 (args : List Str) (env : RedmineEnv) (db : DB) :
    extractMentions args = extractMentions (args.filter startsWithAt) ∧
    collectBuckets env db (extractMentions args)
      = collectBuckets env db (extractMentions (args.filter startsWithAt)) ∧
    ∀ u ∈ extractMentions args, ('@' :: u) ∈ args ∧ u ≠ [] := by
  have prov : ∀ u ∈ extractMentions args, ('@' :: u) ∈ args ∧ u ≠ [] := by
    induction args with
    | nil =>
      intro u hu
      exact absurd hu (by simp [extractMentions])
    | cons a t ih =>
      intro u hu
      cases a with
      | nil =>
        simp only [extractMentions] at hu
        obtain ⟨h1, h2⟩ := ih u hu
        exact ⟨List.mem_cons_of_mem _ h1, h2⟩
      | cons c rest =>
        by_cases hc : c = '@'
        · subst hc
          simp only [extractMentions] at hu
          rw [if_pos (by simp)] at hu
          by_cases he : rest.isEmpty
          · rw [if_pos he] at hu
            obtain ⟨h1, h2⟩ := ih u hu
            exact ⟨List.mem_cons_of_mem _ h1, h2⟩
          · rw [if_neg he] at hu
            rcases List.mem_cons.1 hu with heq | hmem
            · subst heq
              refine ⟨List.mem_cons_self _ _, ?_⟩
              intro hnil
              exact he (by rw [hnil]; rfl)
            · obtain ⟨h1, h2⟩ := ih u hmem
              exact ⟨List.mem_cons_of_mem _ h1, h2⟩
        · simp only [extractMentions] at hu
          rw [if_neg (by simpa using hc)] at hu
          obtain ⟨h1, h2⟩ := ih u hu
          exact ⟨List.mem_cons_of_mem _ h1, h2⟩
  have key : extractMentions args = extractMentions (args.filter startsWithAt) := by
    clear prov
    induction args with
    | nil => rfl
    | cons a t ih =>
      cases a with
      | nil =>
        simp only [extractMentions, List.filter_cons, startsWithAt]
        rw [if_neg (by simp)]
        exact ih
      | cons c rest =>
        by_cases hc : c = '@'
        · subst hc
          simp only [List.filter_cons, startsWithAt]
          rw [if_pos (by simp)]
          simp only [extractMentions]
          rw [ih]
        · have hsw : startsWithAt (c :: rest) = false := by
            simp [startsWithAt, hc]
          simp only [extractMentions, List.filter_cons, hsw]
          rw [if_neg (by simpa using hc), if_neg (by simp)]
          exact ih
  exact ⟨key, by rw [key], prov⟩

/-- Claim C10 witness: from the arguments `@ana bob`, the only extracted
handle is `ana`, coming from the `@`-prefixed token. -/
theorem claim_c10_witness :
    ('@' :: wAna) ∈ wArgs ∧ wAna ≠ [] :=
  (claim_c10 wArgs wEnv2 wDbEmpty).2.2 wAna (by decide)

/-- Claim C9 (amended): for the session 09:00:00–09:47:30 the registration
outcome displays the duration as "47 min" (no hours component; the code
renders `"{total_minutes} min"`, not "47m") and passes 2850/3600 ≈ 0.7917
hours, within 0.0001, to the time-logging calls. -/
theorem claim_c9 :
    dailyRegistration cEnv6 w9Db w9Daily 35300 []
      = ((DailyService.markRegisteredInRedmine w9Db 1).1,
          .registered 7 ((2850 : ℚ) / 3600) "47 min" ⟨[], [], [], []⟩) ∧
    (7917 : ℚ) / 10000 - (2850 : ℚ) / 3600 ≤ 1 / 10000 ∧
    (2850 : ℚ) / 3600 - (7917 : ℚ) / 10000 ≤ 1 / 10000 := by
  have h1 : dailyRegistration cEnv6 w9Db w9Daily 35300 []
      = ((DailyService.markRegisteredInRedmine w9Db 1).1,
          .registered 7 (((35250 - 32400 : Int) : ℚ) / 3600) (durationTextOf 2850)
            ⟨[], [], [], []⟩) := rfl
  have h2 : durationTextOf 2850 = "47 min" := rfl
  have h3 : ((35250 - 32400 : Int) : ℚ) / 3600 = (2850 : ℚ) / 3600 := by norm_num
  rw [h1, h2, h3]
  exact ⟨rfl, by norm_num, by norm_num⟩

/-- Claim C9 counterexample: the claim fails on the code — the displayed
duration for the 09:00:00–09:47:30 session is the literal "47 min", which
is not the claimed "47m". -/
theorem claim_c9_counterexample :
    (dailyRegistration cEnv6 w9Db w9Daily 35300 []).2.durText = some "47 min" ∧
    ("47 min" : String) ≠ "47m" := by
  decide

end MineBot

